import Mathlib

/-!
Verification development for the `phx` websocket transport
(`websocket.go`, `constants.go`).

The Go code is shallowly embedded: the `Websocket` struct becomes a Lean
structure, each method becomes a pure function that returns the updated
state together with a trace of observable events (handler callbacks,
channel operations, sleeps, writes).  Results of external calls (the
gorilla websocket connection, the dialer) are passed in as explicit
parameters.  Durations are modelled in nanoseconds (Go `time.Duration`),
URLs as scheme/host/path records, and `path.Join` / `path.Clean` from
the Go standard library are modelled at the path-segment level.
-/

namespace Phx

/-! ### Go `path` package: segment-level model of `Clean` and `Join` -/

/-- The path segment `..`. -/
def dotdotSeg : List Char := ['.', '.']

/-- The path segment `.`. -/
def dotSeg : List Char := ['.']

/-- The fixed segment `websocket` appended by `startup`. -/
def wsSeg : List Char := ['w', 'e', 'b', 's', 'o', 'c', 'k', 'e', 't']

/-- A segment that contains no separator. -/
def noSlash (s : List Char) : Prop := '/' ∉ s

instance (s : List Char) : Decidable (noSlash s) := by
  unfold noSlash; infer_instance

/-- A segment that `Clean` simply keeps: not empty, not `.`, not `..`. -/
def isNormalSeg (s : List Char) : Prop := s ≠ [] ∧ s ≠ dotSeg ∧ s ≠ dotdotSeg

instance (s : List Char) : Decidable (isNormalSeg s) := by
  unfold isNormalSeg; infer_instance

/-- Prepend a character to the first segment of a split. -/
def consHead (c : Char) : List (List Char) → List (List Char)
  | [] => [[c]]
  | s :: ss => (c :: s) :: ss

/-- Split a path on `/`, keeping empty segments (Go `strings.Split`). -/
def splitSegs : List Char → List (List Char)
  | [] => [[]]
  | c :: rest => if c = '/' then [] :: splitSegs rest else consHead c (splitSegs rest)

/-- Rejoin segments with `/` separators. -/
def joinSegs : List (List Char) → List Char
  | [] => []
  | [s] => s
  | s :: t :: rest => s ++ '/' :: joinSegs (t :: rest)

/-- One step of Go `path.Clean`'s element loop, on the output stack:
empty and `.` segments are skipped, `..` pops the last real element
when one is there (never past a leading run of `..`, never past the
root), and any other segment is pushed. -/
def stepSeg (rooted : Bool) (out : List (List Char)) (seg : List Char) :
    List (List Char) :=
  if seg = [] ∨ seg = dotSeg then out
  else if seg = dotdotSeg then
    if out ≠ [] ∧ out.getLast? ≠ some dotdotSeg then out.dropLast
    else if rooted then out
    else out ++ [dotdotSeg]
  else out ++ [seg]

/-- Run `stepSeg` over all segments, starting from an empty stack. -/
def processAll (rooted : Bool) (segs : List (List Char)) : List (List Char) :=
  segs.foldl (stepSeg rooted) []

/-- Whether a path is rooted (starts with `/`). -/
def isRooted (p : List Char) : Bool := decide (p.head? = some '/')

/-- Print the processed stack back as a path (final part of `path.Clean`):
a rooted result keeps its leading `/`, and an empty unrooted result is `.`. -/
def renderOut (rooted : Bool) (out : List (List Char)) : List Char :=
  if rooted then '/' :: joinSegs out
  else if out = [] then dotSeg
  else joinSegs out

/-- Go `path.Clean`, at segment level. -/
def clean (p : List Char) : List Char :=
  if p = [] then dotSeg
  else renderOut (isRooted p) (processAll (isRooted p) (splitSegs p))

/-- Go `path.Join` for two elements: empty elements are skipped, the
remainder is joined with `/` and cleaned; all-empty input gives `""`. -/
def pathJoin (p e : List Char) : List Char :=
  if p = [] ∧ e = [] then []
  else if p = [] then clean e
  else if e = [] then clean p
  else clean (p ++ '/' :: e)

/-- Shape of every reachable `Clean` output stack: a run of `..` segments
(empty when the path is rooted) followed by normal segments. -/
def StackInv (rooted : Bool) (out : List (List Char)) : Prop :=
  ∃ k ns, out = List.replicate k dotdotSeg ++ ns ∧ (∀ s ∈ ns, isNormalSeg s) ∧
    (rooted = true → k = 0)

/-! ### Data model: the `Websocket` struct and its observable events -/

/-- Go error values: either a gorilla `*CloseError` carrying its close
code, an error built by `errors.New`, or an opaque error produced by the
network. -/
inductive GoError
  | closeErr (code : Int)
  | errorsNew (msg : String)
  | external (tag : Nat)
deriving DecidableEq

/-- Gorilla `websocket.IsCloseError(err, 1000)`: true iff the error is a
`*CloseError` whose code is 1000 (normal closure). -/
def isCloseError1000 : GoError → Bool
  | .closeErr code => code == 1000
  | _ => false

/-- The status of a Go channel, as far as send semantics go: the zero
value `nil`, open (made by `make`), or closed by `close`. -/
inductive ChanStatus
  | nilChan
  | opened
  | closedChan
deriving DecidableEq

/-- The four channels of a session. -/
inductive ChanName
  | doneCh
  | closeCh
  | reconnectCh
  | sendCh
deriving DecidableEq

/-- Observable events of a run: handler callbacks, channel operations,
sleeps, connection operations and goroutine spawns.  Messages are
identified by a `Nat` tag; dial targets record the URL string dialed. -/
inductive Event
  | setClosingFlag (b : Bool)
  | writeCloseMessage
  | sleepMs (n : Nat)
  | connCloseCall
  | onConnError (e : GoError)
  | onConnClose
  | onConnOpen
  | onReadError (e : GoError)
  | onWriteError (e : GoError)
  | onConnMessage (m : Nat)
  | setConnNil
  | chanSendSignal (c : ChanName)
  | chanClosed (c : ChanName)
  | spawnConnectionManager
  | spawnWriter
  | spawnReader
  | writeJSON (m : Nat)
  | dialAttempt (target : List Char)
deriving DecidableEq

/-- `net/url.URL` restricted to the fields a websocket endpoint URL
carries: scheme, host and path. -/
structure GoURL where
  scheme : List Char
  host : List Char
  path : List Char
deriving DecidableEq

/-- `URL.String()` for such a URL: `scheme://host` followed by the path. -/
def urlString (u : GoURL) : List Char :=
  u.scheme ++ ':' :: '/' :: '/' :: u.host ++ u.path

/-- The `Websocket` struct (`websocket.go`).  The `dialer` and `handler`
fields are stateless references to external collaborators and are not
part of the state; the mutex serialises access and vanishes in this
sequential model.  `sendBuf` holds the contents of the buffered `send`
channel. -/
structure Websocket where
  conn : Option Nat
  endPoint : List Char
  requestHeader : Nat
  done : ChanStatus
  close : ChanStatus
  reconnect : ChanStatus
  send : ChanStatus
  sendBuf : List Nat
  connectionTries : Int
  started : Bool
  closing : Bool
  reconnecting : Bool
deriving DecidableEq

/-- `busyWait` from `constants.go`, in milliseconds. -/
def busyWait : Nat := 100

/-- `messageQueueLength` from `constants.go`. -/
def messageQueueLength : Nat := 100

/-- One `time.Millisecond`, in nanoseconds (`time.Duration` units). -/
def millisecond : Int := 1000000

/-- The literal backoff schedule of `defaultReconnectAfterFunc`. -/
def schedule : List Int := [10, 50, 100, 150, 200, 250, 500, 1000, 2000]

/-- `defaultReconnectAfterFunc` from `constants.go`: `schedule[tries]`
milliseconds when `0 <= tries < len(schedule)`, else 5000 ms.  The
result is in nanoseconds, as a Go `time.Duration` is. -/
def defaultReconnectAfterFunc (tries : Int) : Int :=
  if 0 ≤ tries ∧ tries < (schedule.length : Int) then
    schedule.getD tries.toNat 0 * millisecond
  else 5000 * millisecond

/-- `NewWebsocket`: all fields at their Go zero values. -/
def NewWebsocket : Websocket where
  conn := none
  endPoint := []
  requestHeader := 0
  done := .nilChan
  close := .nilChan
  reconnect := .nilChan
  send := .nilChan
  sendBuf := []
  connectionTries := 0
  started := false
  closing := false
  reconnecting := false

/-- `connIsSet`: the endpoint handle is non-nil. -/
def connIsSet (w : Websocket) : Bool := w.conn.isSome

/-- `connIsReady`: started, not closing, not reconnecting, conn non-nil. -/
def connIsReady (w : Websocket) : Bool :=
  w.started && !w.closing && !w.reconnecting && w.conn.isSome

/-- `IsConnected`. -/
def IsConnected (w : Websocket) : Bool := connIsReady w

/-- `startup`: path-join `websocket` onto the endpoint path, record the
URL string and headers, reset the attempt counter, make the four
channels, clear the flags, spawn the three loops, set `started`. -/
def startup (w : Websocket) (endPoint : GoURL) (requestHeader : Nat) :
    Websocket × List Event :=
  ({ w with
      endPoint := urlString { endPoint with path := pathJoin endPoint.path wsSeg }
      requestHeader := requestHeader
      connectionTries := 0
      done := .opened
      close := .opened
      reconnect := .opened
      send := .opened
      sendBuf := []
      reconnecting := false
      closing := false
      started := true },
   [.spawnConnectionManager, .spawnWriter, .spawnReader])

/-- `Connect`. -/
def Connect (w : Websocket) (endPoint : GoURL) (requestHeader : Nat) :
    Option GoError × Websocket × List Event :=
  if w.started then (some (.errorsNew "connect was already called"), w, [])
  else
    let p := startup w endPoint requestHeader
    (none, p.1, p.2)

/-- `teardown`: close the four channels, clear the flags. -/
def teardown (w : Websocket) : Websocket × List Event :=
  ({ w with
      done := .closedChan
      close := .closedChan
      reconnect := .closedChan
      send := .closedChan
      started := false
      reconnecting := false
      closing := false },
   [.chanClosed .doneCh, .chanClosed .closeCh, .chanClosed .reconnectCh,
    .chanClosed .sendCh])

/-- `sendClose`: a no-op when already closing, else set `closing` and
signal the close channel. -/
def sendClose (w : Websocket) : Websocket × List Event :=
  if w.closing then (w, [])
  else ({ w with closing := true }, [.chanSendSignal .closeCh])

/-- `sendReconnect`: a no-op when already reconnecting or closing, else
set `reconnecting` and signal the reconnect channel. -/
def sendReconnect (w : Websocket) : Websocket × List Event :=
  if w.reconnecting || w.closing then (w, [])
  else ({ w with reconnecting := true }, [.chanSendSignal .reconnectCh])

/-- `Disconnect`. -/
def Disconnect (w : Websocket) : Option GoError × Websocket × List Event :=
  if !w.started then (some (.errorsNew "not connected"), w, [])
  else if connIsSet w then
    let p := sendClose w
    (none, p.1, p.2)
  else
    let p := teardown w
    (none, p.1, p.2)

/-- What `w.send <- msg` does, by Go channel semantics, as a function of
the channel status and buffer occupancy. -/
inductive SendOutcome
  | blocksForever
  | panics
  | enqueued
  | blocksUntilSpace
deriving DecidableEq

/-- `Send`: a send on the `send` channel.  On a nil channel it blocks
forever, on a closed channel it panics, on an open channel it enqueues
(blocking first if the buffer is at capacity). -/
def Send (w : Websocket) (msg : Nat) : SendOutcome × Websocket :=
  match w.send with
  | .nilChan => (.blocksForever, w)
  | .closedChan => (.panics, w)
  | .opened =>
    if w.sendBuf.length < messageQueueLength then
      (.enqueued, { w with sendBuf := w.sendBuf ++ [msg] })
    else (.blocksUntilSpace, w)

/-- `dial`: one call of `w.dialer.Dial(w.endPoint, w.requestHeader)`,
parameterised by its outcome.  On success the new handle is recorded,
`reconnecting` is cleared and `OnConnOpen` fires. -/
def dial (w : Websocket) (dialResult : Option GoError) (newConn : Nat) :
    Option GoError × Websocket × List Event :=
  match dialResult with
  | some e => (some e, w, [.dialAttempt w.endPoint])
  | none =>
    (none, { w with conn := some newConn, reconnecting := false },
     [.dialAttempt w.endPoint, .onConnOpen])

/-- `closeConn`, parameterised by the outcomes of the close-message
write and of `conn.Close()`.  The 250 ms grace sleep happens only when
the close-message write returned nil. -/
def closeConn (w : Websocket)
    (writeCloseResult connCloseResult : Option GoError) :
    Websocket × List Event :=
  if connIsSet w = false then (w, [])
  else
    ({ w with conn := none, closing := false },
     [.setClosingFlag true, .writeCloseMessage] ++
       (if writeCloseResult = none then [.sleepMs 250] else []) ++
       [.connCloseCall] ++
       (match connCloseResult with
        | some e => [.onConnError e]
        | none => []) ++
       [.setConnNil, .onConnClose, .setClosingFlag false])

/-- The step sequence claim C2 states for `closeConn`: the same as the
code's, but with the 250 ms grace period as an unconditional step. -/
def closeConnClaimedTrace (connCloseResult : Option GoError) : List Event :=
  [.setClosingFlag true, .writeCloseMessage, .sleepMs 250, .connCloseCall] ++
    (match connCloseResult with
     | some e => [.onConnError e]
     | none => []) ++
    [.setConnNil, .onConnClose, .setClosingFlag false]

/-- `writeToConn`: fails when the connection is not ready, else performs
`conn.WriteJSON(msg)` with the given outcome. -/
def writeToConn (w : Websocket) (msg : Nat) (writeResult : Option GoError) :
    Option GoError × List Event :=
  if connIsReady w = false then (some (.errorsNew "connection is not open"), [])
  else (writeResult, [.writeJSON msg])

/-- `readFromConn`: fails when the connection is not ready, else returns
the outcome of `conn.ReadJSON`. -/
def readFromConn (w : Websocket) (readResult : Except GoError Nat) :
    Except GoError Nat :=
  if connIsReady w = false then .error (.errorsNew "connection is not open")
  else readResult

/-- The writer loop's handling of a message just received from the
`send` channel: re-check readiness (discarding the message and idling
when not ready), else write it; on a write error fire `OnWriteError`,
call `sendReconnect` and idle one `busyWait`. -/
def writerHandleMsg (w : Websocket) (msg : Nat) (writeResult : Option GoError) :
    Websocket × List Event :=
  if connIsReady w = false then (w, [.sleepMs busyWait])
  else
    match writeToConn w msg writeResult with
    | (some e, evs) =>
      let p := sendReconnect w
      (p.1, evs ++ [.onWriteError e] ++ p.2 ++ [.sleepMs busyWait])
    | (none, evs) => (w, evs)

/-- One pass of the reader loop after the done check: idle when not
ready, else read; on a read error, fire `OnReadError` and call
`sendReconnect` unless the error is close code 1000, then idle one
`busyWait`; on success forward the message to `OnConnMessage`. -/
def readerStep (w : Websocket) (readResult : Except GoError Nat) :
    Websocket × List Event :=
  if connIsReady w = false then (w, [.sleepMs busyWait])
  else
    match readFromConn w readResult with
    | .error e =>
      if isCloseError1000 e = false then
        let p := sendReconnect w
        (p.1, .onReadError e :: p.2 ++ [.sleepMs busyWait])
      else (w, [.sleepMs busyWait])
    | .ok m => (w, [.onConnMessage m])

/-- A sample endpoint URL (`ws://h/s`) for concrete witnesses. -/
def sampleURL : GoURL where
  scheme := ['w', 's']
  host := ['h']
  path := ['/', 's']

/-- A concrete ready state: a session started by `startup` whose first
dial succeeded. -/
def connectedState : Websocket :=
  (dial (startup NewWebsocket sampleURL 0).1 none 0).2.1

/-- A concrete state after teardown of a session that held no live
endpoint handle. -/
def tornDownState : Websocket :=
  (teardown (startup NewWebsocket sampleURL 0).1).1

theorem splitSegs_ne_nil (p : List Char) : splitSegs p ≠ [] := by
  cases p with
  | nil => simp [splitSegs]
  | cons c rest =>
    simp only [splitSegs]
    by_cases h : c = '/'
    · simp [h]
    · simp only [h, if_false]
      cases splitSegs rest <;> simp [consHead]

theorem splitSegs_noSlash_eq (w : List Char) (hw : noSlash w) :
    splitSegs w = [w] := by
  induction w with
  | nil => rfl
  | cons c rest ih =>
    have hc : c ≠ '/' := by
      intro h; exact hw (h ▸ List.mem_cons_self c rest)
    have hrest : noSlash rest := fun h => hw (List.mem_cons_of_mem c h)
    simp [splitSegs, hc, ih hrest, consHead]

theorem splitSegs_head_seg (s t : List Char) (hs : noSlash s) :
    splitSegs (s ++ '/' :: t) = s :: splitSegs t := by
  induction s with
  | nil => simp [splitSegs]
  | cons c s' ih =>
    have hc : c ≠ '/' := by
      intro h; exact hs (h ▸ List.mem_cons_self c s')
    have hs' : noSlash s' := fun h => hs (List.mem_cons_of_mem c h)
    simp [splitSegs, hc, ih hs', consHead]

theorem splitSegs_append_seg (p w : List Char) (hw : noSlash w) :
    splitSegs (p ++ '/' :: w) = splitSegs p ++ [w] := by
  induction p with
  | nil => simp [splitSegs, splitSegs_noSlash_eq w hw]
  | cons c p' ih =>
    by_cases hc : c = '/'
    · simp [splitSegs, hc, ih]
    · simp only [List.cons_append, splitSegs, hc, if_false]
      have hne := splitSegs_ne_nil p'
      cases hsp : splitSegs p' with
      | nil => exact absurd hsp hne
      | cons s ss => simp [hsp, consHead] at ih ⊢; simp [ih]

theorem splitSegs_joinSegs (l : List (List Char)) (hl : l ≠ [])
    (h : ∀ s ∈ l, noSlash s) : splitSegs (joinSegs l) = l := by
  induction l with
  | nil => exact absurd rfl hl
  | cons s rest ih =>
    cases rest with
    | nil =>
      simp [joinSegs, splitSegs_noSlash_eq s (h s (List.mem_cons_self s []))]
    | cons t rest' =>
      have hs : noSlash s := h s (List.mem_cons_self s _)
      have hrest : ∀ x ∈ t :: rest', noSlash x :=
        fun x hx => h x (List.mem_cons_of_mem s hx)
      simp only [joinSegs]
      rw [splitSegs_head_seg s _ hs, ih (by simp) hrest]

theorem splitSegs_mem_noSlash (p : List Char) :
    ∀ s ∈ splitSegs p, noSlash s := by
  induction p with
  | nil => intro s hs; simp [splitSegs] at hs; simp [hs, noSlash]
  | cons c rest ih =>
    intro s hs
    by_cases hc : c = '/'
    · simp [splitSegs, hc] at hs
      rcases hs with h | h
      · simp [h, noSlash]
      · exact ih s h
    · simp only [splitSegs, hc, if_false] at hs
      have hne := splitSegs_ne_nil rest
      cases hsp : splitSegs rest with
      | nil => exact absurd hsp hne
      | cons s₀ ss =>
        rw [hsp, consHead] at hs
        rcases List.mem_cons.mp hs with h | h
        · subst h
          have hns₀ : noSlash s₀ := ih s₀ (by rw [hsp]; exact List.mem_cons_self _ _)
          intro hmem
          rcases List.mem_cons.mp hmem with h | h
          · exact hc h.symm
          · exact hns₀ h
        · exact ih s (by rw [hsp]; exact List.mem_cons_of_mem _ h)

theorem stepSeg_normal (rooted : Bool) (out : List (List Char)) (seg : List Char)
    (h : isNormalSeg seg) : stepSeg rooted out seg = out ++ [seg] := by
  obtain ⟨h1, h2, h3⟩ := h
  simp [stepSeg, h1, h2, h3]

theorem foldl_stepSeg_normal (rooted : Bool) (ns : List (List Char))
    (h : ∀ s ∈ ns, isNormalSeg s) (acc : List (List Char)) :
    List.foldl (stepSeg rooted) acc ns = acc ++ ns := by
  induction ns generalizing acc with
  | nil => simp
  | cons s ns' ih =>
    rw [List.foldl_cons, stepSeg_normal rooted acc s (h s (List.mem_cons_self _ _)),
      ih (fun x hx => h x (List.mem_cons_of_mem _ hx))]
    simp

theorem processAll_append_normal (rooted : Bool) (xs : List (List Char))
    (w : List Char) (hw : isNormalSeg w) :
    processAll rooted (xs ++ [w]) = processAll rooted xs ++ [w] := by
  unfold processAll
  rw [List.foldl_append, List.foldl_cons, List.foldl_nil,
    stepSeg_normal rooted _ w hw]

theorem stepSeg_inv (rooted : Bool) (out : List (List Char)) (seg : List Char)
    (h : StackInv rooted out) : StackInv rooted (stepSeg rooted out seg) := by
  obtain ⟨k, ns, heq, hns, hk⟩ := h
  unfold stepSeg
  split_ifs with h1 h2 h3 h4
  · exact ⟨k, ns, heq, hns, hk⟩
  · -- `..` pops the last element
    have hns_ne : ns ≠ [] := by
      intro hnil
      subst hnil
      rw [List.append_nil] at heq
      subst heq
      rcases h3 with ⟨hout_ne, hlast⟩
      cases k with
      | zero => exact hout_ne rfl
      | succ k' =>
        rw [List.replicate_succ', List.getLast?_concat] at hlast
        exact hlast rfl
    refine ⟨k, ns.dropLast, ?_, ?_, hk⟩
    · rw [heq]
      cases ns with
      | nil => exact absurd rfl hns_ne
      | cons n0 ns' => rw [List.dropLast_append_cons]
    · exact fun s hs => hns s (List.dropLast_subset ns hs)
  · exact ⟨k, ns, heq, hns, hk⟩
  · -- `..` is pushed (unrooted, nothing left to pop)
    have hrooted : rooted = false := by
      cases rooted with
      | false => rfl
      | true => exact absurd rfl h4
    rw [Classical.not_and_iff_or_not_not] at h3
    rcases h3 with h3 | h3
    · -- the stack is empty
      have hout : out = [] := not_not.mp h3
      subst hout
      exact ⟨1, [], by simp, by simp, by simp [hrooted]⟩
    · -- the stack ends in `..`, hence is all `..`
      have hlast : out.getLast? = some dotdotSeg := not_not.mp h3
      have hns_nil : ns = [] := by
        cases hnsc : ns with
        | nil => rfl
        | cons n0 ns' =>
          rw [heq, hnsc, List.getLast?_append_of_ne_nil _ (by simp)] at hlast
          have hmem : dotdotSeg ∈ n0 :: ns' := by
            obtain ⟨hne', hx⟩ := List.mem_getLast?_eq_getLast hlast
            rw [hx]
            exact List.getLast_mem hne'
          have := hns dotdotSeg (hnsc ▸ hmem)
          exact absurd rfl this.2.2
      subst hns_nil
      rw [List.append_nil] at heq
      subst heq
      exact ⟨k + 1, [], by rw [List.replicate_succ', List.append_nil], by simp,
        by simp [hrooted]⟩
  · -- a normal segment is pushed
    have hseg : isNormalSeg seg := by
      push_neg at h1
      exact ⟨h1.1, h1.2, h2⟩
    refine ⟨k, ns ++ [seg], by rw [heq, List.append_assoc], ?_, hk⟩
    intro s hs
    rcases List.mem_append.mp hs with h | h
    · exact hns s h
    · rw [List.mem_singleton.mp h]
      exact hseg

theorem foldl_stepSeg_inv (rooted : Bool) (segs : List (List Char))
    (acc : List (List Char)) (h : StackInv rooted acc) :
    StackInv rooted (List.foldl (stepSeg rooted) acc segs) := by
  induction segs generalizing acc with
  | nil => exact h
  | cons s segs' ih => exact ih _ (stepSeg_inv rooted acc s h)

theorem processAll_inv (rooted : Bool) (segs : List (List Char)) :
    StackInv rooted (processAll rooted segs) :=
  foldl_stepSeg_inv rooted segs [] ⟨0, [], rfl, by simp, fun _ => rfl⟩

theorem stepSeg_dotdot_unrooted (i : ℕ) :
    stepSeg false (List.replicate i dotdotSeg) dotdotSeg =
      List.replicate (i + 1) dotdotSeg := by
  unfold stepSeg
  rw [if_neg (by decide), if_pos rfl]
  cases i with
  | zero => simp
  | succ i' =>
    have hlast : (List.replicate (i' + 1) dotdotSeg).getLast? = some dotdotSeg := by
      rw [List.replicate_succ', List.getLast?_concat]
    rw [if_neg (by simp [hlast]), if_neg (by simp), ← List.replicate_succ']

theorem foldl_stepSeg_dotdot (j i : ℕ) :
    List.foldl (stepSeg false) (List.replicate i dotdotSeg)
      (List.replicate j dotdotSeg) = List.replicate (i + j) dotdotSeg := by
  induction j generalizing i with
  | zero => simp
  | succ j' ih =>
    rw [List.replicate_succ, List.foldl_cons, stepSeg_dotdot_unrooted i, ih (i + 1)]
    congr 1
    omega

theorem processAll_fixpoint (rooted : Bool) (out : List (List Char))
    (h : StackInv rooted out) : processAll rooted out = out := by
  obtain ⟨k, ns, heq, hns, hk⟩ := h
  subst heq
  unfold processAll
  rw [List.foldl_append]
  cases rooted with
  | true =>
    rw [hk rfl]
    simp only [List.replicate, List.foldl_nil]
    rw [foldl_stepSeg_normal true ns hns []]
  | false =>
    have hdd : List.foldl (stepSeg false) [] (List.replicate k dotdotSeg) =
        List.replicate k dotdotSeg := by
      have := foldl_stepSeg_dotdot k 0
      simpa using this
    rw [hdd, foldl_stepSeg_normal false ns hns]

theorem stepSeg_mem (rooted : Bool) (out : List (List Char)) (seg : List Char)
    (s : List Char) (hs : s ∈ stepSeg rooted out seg) :
    s ∈ out ∨ s = seg ∨ s = dotdotSeg := by
  unfold stepSeg at hs
  split_ifs at hs
  · exact Or.inl hs
  · exact Or.inl (List.dropLast_subset out hs)
  · exact Or.inl hs
  · rcases List.mem_append.mp hs with h | h
    · exact Or.inl h
    · exact Or.inr (Or.inr (List.mem_singleton.mp h))
  · rcases List.mem_append.mp hs with h | h
    · exact Or.inl h
    · exact Or.inr (Or.inl (List.mem_singleton.mp h))

theorem foldl_stepSeg_noSlash (rooted : Bool) (segs : List (List Char))
    (hsegs : ∀ s ∈ segs, noSlash s) (acc : List (List Char))
    (hacc : ∀ s ∈ acc, noSlash s) :
    ∀ s ∈ List.foldl (stepSeg rooted) acc segs, noSlash s := by
  induction segs generalizing acc with
  | nil => exact hacc
  | cons t segs' ih =>
    rw [List.foldl_cons]
    refine ih (fun s hs => hsegs s (List.mem_cons_of_mem _ hs)) _ ?_
    intro s hs
    rcases stepSeg_mem rooted acc t s hs with h | h | h
    · exact hacc s h
    · exact h ▸ hsegs t (List.mem_cons_self _ _)
    · rw [h]; decide

theorem processAll_noSlash (rooted : Bool) (segs : List (List Char))
    (hsegs : ∀ s ∈ segs, noSlash s) :
    ∀ s ∈ processAll rooted segs, noSlash s :=
  foldl_stepSeg_noSlash rooted segs hsegs [] (by simp)

theorem isRooted_append (p q : List Char) (hp : p ≠ []) :
    isRooted (p ++ q) = isRooted p := by
  cases p with
  | nil => exact absurd rfl hp
  | cons c p' => simp [isRooted]

theorem stepSeg_nil_seg (rooted : Bool) : stepSeg rooted [] [] = [] := by
  simp [stepSeg]

/-- Joining the fixed segment `websocket` onto any path never returns the
original path: the cleaned result always carries `websocket` as one more
trailing segment than cleaning the original would produce. -/
theorem pathJoin_ws_ne (p : List Char) : pathJoin p wsSeg ≠ p := by
  by_cases hp : p = []
  · subst hp
    decide
  · intro hEq
    have hws_ne : wsSeg ≠ ([] : List Char) := by decide
    have hjoin : pathJoin p wsSeg = clean (p ++ '/' :: wsSeg) := by
      unfold pathJoin
      rw [if_neg (by exact fun h => hp h.1), if_neg hp, if_neg hws_ne]
    have hne : p ++ '/' :: wsSeg ≠ [] := by simp
    have hroot : isRooted (p ++ '/' :: wsSeg) = isRooted p :=
      isRooted_append p _ hp
    have hsplit : splitSegs (p ++ '/' :: wsSeg) = splitSegs p ++ [wsSeg] :=
      splitSegs_append_seg p wsSeg (by decide)
    have hclean : clean (p ++ '/' :: wsSeg) =
        renderOut (isRooted p)
          (processAll (isRooted p) (splitSegs p) ++ [wsSeg]) := by
      unfold clean
      rw [if_neg hne, hroot, hsplit,
        processAll_append_normal (isRooted p) _ wsSeg (by decide)]
    rw [hjoin, hclean] at hEq
    have hLslash : ∀ s ∈ processAll (isRooted p) (splitSegs p) ++ [wsSeg],
        noSlash s := by
      intro s hs
      rcases List.mem_append.mp hs with h | h
      · exact processAll_noSlash _ _ (splitSegs_mem_noSlash p) s h
      · rw [List.mem_singleton.mp h]; decide
    have hfix : processAll (isRooted p)
        (processAll (isRooted p) (splitSegs p)) =
        processAll (isRooted p) (splitSegs p) :=
      processAll_fixpoint _ _ (processAll_inv _ _)
    have hlen : processAll (isRooted p) (splitSegs p) ≠
        processAll (isRooted p) (splitSegs p) ++ [wsSeg] := by
      intro h
      have := congrArg List.length h
      simp at this
    cases hR : isRooted p with
    | true =>
      rw [hR] at hEq
      unfold renderOut at hEq
      rw [if_pos rfl] at hEq
      -- p = '/' :: joinSegs (out ++ [websocket])
      have hsp : splitSegs p =
          [] :: (processAll (isRooted p) (splitSegs p) ++ [wsSeg]) := by
        conv_lhs => rw [← hEq]
        rw [show ('/' :: joinSegs (processAll true (splitSegs p) ++ [wsSeg])) =
          [] ++ '/' :: joinSegs (processAll true (splitSegs p) ++ [wsSeg]) from rfl]
        rw [splitSegs_head_seg [] _ (by simp [noSlash]),
          splitSegs_joinSegs _ (by simp) (hR ▸ hLslash), hR]
      rw [hR] at hfix hlen hsp
      have hout : processAll true (splitSegs p) =
          processAll true (splitSegs p) ++ [wsSeg] := by
        conv_lhs => rw [hsp]
        show List.foldl (stepSeg true) (stepSeg true [] [])
          (processAll true (splitSegs p) ++ [wsSeg]) = _
        rw [stepSeg_nil_seg]
        rw [show List.foldl (stepSeg true) []
            (processAll true (splitSegs p) ++ [wsSeg]) =
          processAll true (processAll true (splitSegs p) ++ [wsSeg]) from rfl]
        rw [processAll_append_normal true _ wsSeg (by decide), hfix]
      exact hlen hout
    | false =>
      rw [hR] at hEq
      unfold renderOut at hEq
      rw [if_neg (by simp), if_neg (by simp)] at hEq
      have hsp : splitSegs p =
          processAll (isRooted p) (splitSegs p) ++ [wsSeg] := by
        conv_lhs => rw [← hEq]
        rw [splitSegs_joinSegs _ (by simp) (hR ▸ hLslash), hR]
      rw [hR] at hfix hlen hsp
      have hout : processAll false (splitSegs p) =
          processAll false (splitSegs p) ++ [wsSeg] := by
        conv_lhs => rw [hsp]
        rw [processAll_append_normal false _ wsSeg (by decide), hfix]
      exact hlen hout

/-! ### Claims -/

theorem urlString_inj_path (u : GoURL) (p q : List Char)
    (h : urlString { u with path := p } = urlString { u with path := q }) :
    p = q := by
  unfold urlString at h
  simp at h
  exact h

/-- Claim C1: `IsConnected` returns the value of the internal readiness
predicate `connIsReady`, and it is true exactly when the started flag is
set, the closing and reconnecting flags are clear, and the endpoint
handle is non-nil. -/
theorem isConnected_iff_ready (w : Websocket) :
    IsConnected w = connIsReady w ∧
    (IsConnected w = true ↔
      w.started = true ∧ w.closing = false ∧ w.reconnecting = false ∧
        w.conn.isSome = true) := by
  refine ⟨rfl, ?_⟩
  simp [IsConnected, connIsReady, Bool.and_eq_true, Bool.not_eq_true', and_assoc]

/-- Witness for C1 at a concrete ready state. -/
theorem isConnected_iff_ready_witness :
    IsConnected connectedState = connIsReady connectedState :=
  (isConnected_iff_ready connectedState).1

/-- Claim C2 as stated fails: when the close-notification write fails,
`closeConn` skips the 250 ms grace sleep, so the claimed unconditional
step sequence is not the trace of the run. -/
theorem closeConn_claimed_trace_fails :
    (closeConn connectedState (some (.external 0)) none).2 ≠
      closeConnClaimedTrace none ∧
    Event.sleepMs 250 ∉ (closeConn connectedState (some (.external 0)) none).2 := by
  decide

/-- Claim C2 (amended): with a live endpoint, `closeConn` sets the
closing flag, attempts the close notification, sleeps the 250 ms grace
period exactly when that write succeeded, hard-closes the endpoint,
reports any hard-close error to the handler, clears the handle, fires
`OnConnClose` exactly once, and finally clears the closing flag, in this
order. -/
theorem closeConn_steps (w : Websocket) (wres cres : Option GoError)
    (h : w.conn ≠ none) :
    closeConn w wres cres =
      ({ w with conn := none, closing := false },
       [.setClosingFlag true, .writeCloseMessage] ++
         (if wres = none then [.sleepMs 250] else []) ++
         [.connCloseCall] ++
         (match cres with
          | some e => [.onConnError e]
          | none => []) ++
         [.setConnNil, .onConnClose, .setClosingFlag false]) ∧
    (closeConn w wres cres).2.count .onConnClose = 1 := by
  have hset : connIsSet w = true := by
    simp [connIsSet, Option.isSome_iff_ne_none, h]
  refine ⟨by simp [closeConn, hset], ?_⟩
  cases wres <;> cases cres <;> simp [closeConn, hset, List.count_cons]

/-- Witness for C2's amended theorem at a concrete connected state. -/
theorem closeConn_steps_witness :
    (closeConn connectedState none none).2.count .onConnClose = 1 :=
  (closeConn_steps connectedState none none (by decide)).2

/-- Claim C3: `Connect` errors iff a session is already started; in the
error case all state is unchanged; in the other case it returns nil and
runs `startup`, which initialises the channels, queue and attempt
counter, sets `started`, spawns the three loops, and performs no dial
itself. -/
theorem connect_spec (w : Websocket) (u : GoURL) (hdr : Nat) :
    ((Connect w u hdr).1 ≠ none ↔ w.started = true) ∧
    (w.started = true →
      Connect w u hdr =
        (some (.errorsNew "connect was already called"), w, [])) ∧
    (w.started = false →
      (Connect w u hdr).1 = none ∧
      (Connect w u hdr).2 = startup w u hdr ∧
      (startup w u hdr).1.started = true ∧
      (startup w u hdr).1.connectionTries = 0 ∧
      (startup w u hdr).1.done = .opened ∧
      (startup w u hdr).1.close = .opened ∧
      (startup w u hdr).1.reconnect = .opened ∧
      (startup w u hdr).1.send = .opened ∧
      (startup w u hdr).1.sendBuf = [] ∧
      (startup w u hdr).2 =
        [.spawnConnectionManager, .spawnWriter, .spawnReader] ∧
      ∀ t, Event.dialAttempt t ∉ (startup w u hdr).2) := by
  by_cases hw : w.started <;> simp [Connect, startup, hw]

/-- Witness for C3: a fresh transport connects, a started one errors. -/
theorem connect_spec_witness :
    (Connect NewWebsocket sampleURL 0).1 = none ∧
    Connect connectedState sampleURL 0 =
      (some (.errorsNew "connect was already called"), connectedState, []) :=
  ⟨((connect_spec NewWebsocket sampleURL 0).2.2 rfl).1,
   (connect_spec connectedState sampleURL 0).2.1 (by decide)⟩

/-- Claim C4: `Disconnect` errors iff no session is started, leaving
state unchanged in that case; otherwise it returns nil and runs the
graceful-close request `sendClose` when a handle is set, and `teardown`
when none is. -/
theorem disconnect_spec (w : Websocket) :
    ((Disconnect w).1 ≠ none ↔ w.started = false) ∧
    (w.started = false →
      Disconnect w = (some (.errorsNew "not connected"), w, [])) ∧
    (w.started = true →
      (Disconnect w).1 = none ∧
      (w.conn ≠ none → (Disconnect w).2 = sendClose w) ∧
      (w.conn = none → (Disconnect w).2 = teardown w)) := by
  by_cases hw : w.started
  · cases hc : w.conn <;> simp [Disconnect, hw, hc, connIsSet]
  · simp [Disconnect, hw]

/-- Witness for C4: a fresh transport errors, a connected one requests
the graceful close. -/
theorem disconnect_spec_witness :
    Disconnect NewWebsocket =
      (some (GoError.errorsNew "not connected"), NewWebsocket, []) ∧
    (Disconnect connectedState).2 = sendClose connectedState :=
  ⟨(disconnect_spec NewWebsocket).2.1 rfl,
   ((disconnect_spec connectedState).2.2 (by decide)).2.1 (by decide)⟩

/-- Claim C5: on a failed read in a ready state, `OnReadError` fires and
`sendReconnect` (the raising of the reconnect signal) is called iff the
error is not close code 1000; for that one code nothing happens beyond
the idle sleep, and with the flags clear a value goes out on the
reconnect channel iff the error is not close code 1000. -/
theorem reader_error_spec (w : Websocket) (e : GoError)
    (hready : connIsReady w = true) :
    (isCloseError1000 e = false →
      readerStep w (.error e) =
        ((sendReconnect w).1,
         .onReadError e :: (sendReconnect w).2 ++ [.sleepMs busyWait])) ∧
    (isCloseError1000 e = true →
      readerStep w (.error e) = (w, [.sleepMs busyWait])) ∧
    (Event.onReadError e ∈ (readerStep w (.error e)).2 ↔
      isCloseError1000 e = false) ∧
    (w.reconnecting = false → w.closing = false →
      (Event.chanSendSignal .reconnectCh ∈ (readerStep w (.error e)).2 ↔
        isCloseError1000 e = false)) := by
  cases h1000 : isCloseError1000 e <;>
    simp [readerStep, readFromConn, hready, h1000, sendReconnect]
  intro hr hc
  simp [hr, hc]

/-- Witness for C5: close code 1000 is suppressed, another error is
reported and raises the reconnect signal. -/
theorem reader_error_spec_witness :
    readerStep connectedState (.error (GoError.closeErr 1000)) =
      (connectedState, [.sleepMs busyWait]) ∧
    readerStep connectedState (.error (GoError.external 7)) =
      ((sendReconnect connectedState).1,
       .onReadError (GoError.external 7) ::
         (sendReconnect connectedState).2 ++ [.sleepMs busyWait]) :=
  ⟨(reader_error_spec connectedState (GoError.closeErr 1000) (by decide)).2.1
      (by decide),
   (reader_error_spec connectedState (GoError.external 7) (by decide)).1
      (by decide)⟩

/-- Claim C6: `sendReconnect` is a no-op (no state change, nothing sent)
when the reconnecting or closing flag is set; otherwise it sets
`reconnecting` and sends exactly one value on the reconnect channel. -/
theorem sendReconnect_spec (w : Websocket) :
    ((w.reconnecting = true ∨ w.closing = true) → sendReconnect w = (w, [])) ∧
    (w.reconnecting = false → w.closing = false →
      sendReconnect w =
        ({ w with reconnecting := true }, [.chanSendSignal .reconnectCh]) ∧
      (sendReconnect w).2.count (.chanSendSignal .reconnectCh) = 1) := by
  by_cases hr : w.reconnecting <;> by_cases hc : w.closing <;>
    simp [sendReconnect, hr, hc, List.count_cons]

/-- Witness for C6 at concrete states on both sides of the guard. -/
theorem sendReconnect_spec_witness :
    sendReconnect { NewWebsocket with reconnecting := true } =
      ({ NewWebsocket with reconnecting := true }, []) ∧
    (sendReconnect NewWebsocket).2.count (.chanSendSignal .reconnectCh) = 1 :=
  ⟨(sendReconnect_spec { NewWebsocket with reconnecting := true }).1
      (Or.inl rfl),
   ((sendReconnect_spec NewWebsocket).2 rfl rfl).2⟩

/-- Claim C7: the default backoff policy returns exactly 10, 50, 100,
150, 200, 250, 500, 1000 and 2000 ms for attempts 0 through 8, and
exactly 5000 ms for every attempt at least 9. -/
theorem defaultReconnectAfter_schedule :
    (defaultReconnectAfterFunc 0 = 10 * millisecond ∧
     defaultReconnectAfterFunc 1 = 50 * millisecond ∧
     defaultReconnectAfterFunc 2 = 100 * millisecond ∧
     defaultReconnectAfterFunc 3 = 150 * millisecond ∧
     defaultReconnectAfterFunc 4 = 200 * millisecond ∧
     defaultReconnectAfterFunc 5 = 250 * millisecond ∧
     defaultReconnectAfterFunc 6 = 500 * millisecond ∧
     defaultReconnectAfterFunc 7 = 1000 * millisecond ∧
     defaultReconnectAfterFunc 8 = 2000 * millisecond) ∧
    ∀ tries : Int, 9 ≤ tries →
      defaultReconnectAfterFunc tries = 5000 * millisecond := by
  constructor
  · decide
  · intro t ht
    have hlen : ¬(0 ≤ t ∧ t < (schedule.length : Int)) := by
      simp only [schedule, List.length_cons, List.length_nil]
      push_cast
      omega
    unfold defaultReconnectAfterFunc
    rw [if_neg hlen]

/-- Witness for C7 above the schedule. -/
theorem defaultReconnectAfter_schedule_witness :
    defaultReconnectAfterFunc 12 = 5000 * millisecond :=
  defaultReconnectAfter_schedule.2 12 (by decide)

/-- Claim C8 as stated fails: after teardown, `Send` panics (a send on
a closed channel), while before any session it blocks forever (a send
on a nil channel), so `Send` does not exhibit its pre-session
behaviour. -/
theorem send_after_teardown_differs :
    (Send tornDownState 0).1 = SendOutcome.panics ∧
    (Send NewWebsocket 0).1 = SendOutcome.blocksForever ∧
    SendOutcome.panics ≠ SendOutcome.blocksForever := by
  decide

/-- Claim C8 (amended): after teardown, `IsConnected` returns false and
`Disconnect` fails exactly as on a never-started transport, and when
the handle was already cleared (as the close path guarantees) `Connect`
starts a fresh session exactly as on a new transport; `Send`, however,
panics on the closed queue instead of blocking forever as it does
pre-session. -/
theorem after_teardown_spec (w : Websocket) (u : GoURL) (hdr m : Nat) :
    IsConnected (teardown w).1 = false ∧
    Disconnect (teardown w).1 =
      (some (.errorsNew "not connected"), (teardown w).1, []) ∧
    (Send (teardown w).1 m).1 = SendOutcome.panics ∧
    ((teardown w).1.conn = none →
      Connect (teardown w).1 u hdr = Connect NewWebsocket u hdr) := by
  refine ⟨by simp [IsConnected, connIsReady, teardown],
    by simp [Disconnect, teardown], by simp [Send, teardown], ?_⟩
  intro hconn
  simp only [teardown] at hconn ⊢
  simp [Connect, startup, NewWebsocket, hconn]

/-- Witness for C8's amended theorem at a concrete torn-down state. -/
theorem after_teardown_spec_witness :
    Connect (teardown (startup NewWebsocket sampleURL 0).1).1 sampleURL 0 =
      Connect NewWebsocket sampleURL 0 :=
  (after_teardown_spec (startup NewWebsocket sampleURL 0).1 sampleURL 0 0).2.2.2
    (by decide)

/-- Claim C9: when the writer has dequeued a message but readiness no
longer holds, the message is dropped silently: the state (queue
included) is unchanged, the only event is the idle sleep, nothing is
written, and no handler callback fires. -/
theorem writer_discard_spec (w : Websocket) (m : Nat) (res : Option GoError)
    (h : connIsReady w = false) :
    writerHandleMsg w m res = (w, [.sleepMs busyWait]) ∧
    (writerHandleMsg w m res).1.sendBuf = w.sendBuf ∧
    Event.writeJSON m ∉ (writerHandleMsg w m res).2 ∧
    (∀ e, Event.onWriteError e ∉ (writerHandleMsg w m res).2) := by
  simp [writerHandleMsg, h]

/-- Witness for C9 at a concrete not-ready state. -/
theorem writer_discard_spec_witness :
    writerHandleMsg NewWebsocket 5 none = (NewWebsocket, [.sleepMs busyWait]) :=
  (writer_discard_spec NewWebsocket 5 none rfl).1

/-- Claim C10: `startup` records an endpoint URL whose path is the
caller's path with the segment `websocket` path-joined, which is never
the caller's URL verbatim; `dial` dials exactly that recorded endpoint
and leaves it unchanged, so the transformation happens once, at session
startup. -/
theorem dial_target_spec (w : Websocket) (u : GoURL) (hdr : Nat)
    (dres : Option GoError) (nc : Nat) :
    (startup w u hdr).1.endPoint =
      urlString { u with path := pathJoin u.path wsSeg } ∧
    (startup w u hdr).1.endPoint ≠ urlString u ∧
    (dial (startup w u hdr).1 dres nc).2.2.head? =
      some (.dialAttempt (startup w u hdr).1.endPoint) ∧
    (dial (startup w u hdr).1 dres nc).2.1.endPoint =
      (startup w u hdr).1.endPoint := by
  refine ⟨rfl, ?_, ?_, ?_⟩
  · intro hEq
    apply pathJoin_ws_ne u.path
    exact urlString_inj_path u (pathJoin u.path wsSeg) u.path hEq
  · cases dres <;> rfl
  · cases dres <;> rfl

/-- Witness for C10 at the sample URL. -/
theorem dial_target_spec_witness :
    (startup NewWebsocket sampleURL 0).1.endPoint ≠ urlString sampleURL :=
  (dial_target_spec NewWebsocket sampleURL 0 none 0).2.1

end Phx
